import Mathlib

/-!
Verification development for the bpp-popgen sources
`Pop/GeneMapperCsvExport.cpp` (GeneMapper table importer) and
`Pop/SequenceStatistics.h` (sequence statistics).

The importer is embedded from `GeneMapperCsvExport::read` line by line.
External collaborators (`DataTable`, `VectorTools`, the `DataSet` family)
are modelled after their contracts as stated in the specification
(section "OUT OF SCOPE" and section 6).
-/

namespace Pop

/-! ## Generic list helpers -/

/-- First-occurrence deduplication: the contract of `VectorTools::unique`
as stated by the spec ("Collect the distinct final sample names and
distinct marker names (order of first appearance)"). -/
def uniqueFirst {α : Type} [DecidableEq α] : List α → List α
  | [] => []
  | a :: l => a :: (uniqueFirst l).filter (fun x => decide (x ≠ a))

theorem mem_uniqueFirst {α : Type} [DecidableEq α] (x : α) (l : List α) :
    x ∈ uniqueFirst l ↔ x ∈ l := by
  induction l with
  | nil => simp [uniqueFirst]
  | cons a l ih =>
    simp only [uniqueFirst, List.mem_cons, List.mem_filter, ih, decide_eq_true_eq]
    by_cases hx : x = a
    · simp [hx]
    · simp [hx]

theorem uniqueFirst_nodup {α : Type} [DecidableEq α] (l : List α) :
    (uniqueFirst l).Nodup := by
  induction l with
  | nil => simp [uniqueFirst]
  | cons a l ih =>
    rw [uniqueFirst, List.nodup_cons]
    refine ⟨?_, ih.filter _⟩
    intro hmem
    rcases List.mem_filter.1 hmem with ⟨_, hdec⟩
    simp at hdec

/-- Does `pat` occur at the head of the character list? -/
def leadsWith : List Char → List Char → Bool
  | [], _ => true
  | _ :: _, [] => false
  | p :: ps, h :: hs => p == h && leadsWith ps hs

/-- Does `pat` occur anywhere in the character list?  This models the
condition `TextTools::count(colName, "Allele ") != 0` used to detect
allele columns (a permissive substring match, spec section 9). -/
def hasSub (pat : List Char) : List Char → Bool
  | [] => leadsWith pat []
  | c :: cs => leadsWith pat (c :: cs) || hasSub pat cs

/-! ## The tabular data model (external collaborator `DataTable`) -/

structure DataTable where
  colNames : List String
  rows : List (List String)
deriving DecidableEq, Repr

/-- Index of the column with the given header name
(`VectorTools::which(dt.getColumnNames(), name)`). -/
def columnIndex (dt : DataTable) (nm : String) : Option Nat :=
  dt.colNames.findIdx? (fun c => decide (c = nm))

/-- `dt(i, j)`: the cell at row `i`, column `j`. -/
def cell (dt : DataTable) (i j : Nat) : String :=
  (dt.rows.getD i []).getD j ""

/-- Assignment `dt(i, j) = v`. -/
def setCell (dt : DataTable) (i j : Nat) (v : String) : DataTable :=
  { dt with rows := dt.rows.set i ((dt.rows.getD i []).set j v) }

/-- `dt.getColumn` by column position. -/
def columnAt (dt : DataTable) (j : Nat) : List String :=
  (List.range dt.rows.length).map (fun i => cell dt i j)

/-- `VectorTools::whichAll`: all positions of `v` in the column. -/
def whichAll (col : List String) (v : String) : List Nat :=
  (List.range col.length).filter (fun k => decide (col.getD k "" = v))

/-- `TextTools::isEmpty`: the string holds only whitespace. -/
def isEmptyStr (s : String) : Bool :=
  s.toList.all (fun c => c == ' ' || c == '\t' || c == '\n' || c == '\r')

/-! ## Duplicate (Sample Name, Marker) disambiguation
(`GeneMapperCsvExport.cpp` lines 109-117).  The C++ keeps a
`map<string,int>` from the concatenated key to an occurrence counter;
we model the map as a function with default value `0` (`operator[]`
default-inserts `0`), so "the key is present" is "the counter is nonzero". -/

def fixStep (indIdx markIdx : Nat) (acc : DataTable × (String → Nat)) (i : Nat) :
    DataTable × (String → Nat) :=
  let dt := acc.1
  let m := acc.2
  let nm := cell dt i indIdx
  let key := nm ++ cell dt i markIdx
  let dt' := if m key ≠ 0 then setCell dt i indIdx (nm ++ "_" ++ toString (m key + 1)) else dt
  (dt', fun k => if k = key then m key + 1 else m k)

def fixDuplicates (dt : DataTable) (indIdx markIdx : Nat) : DataTable :=
  ((List.range dt.rows.length).foldl (fixStep indIdx markIdx) (dt, fun _ => 0)).1

/-! ## The destination data model (external collaborator `DataSet`) -/

structure LocusInfo where
  name : String
  alleles : List String
deriving DecidableEq, Repr

structure MonolocusGenotype where
  alleleKeys : List Nat
deriving DecidableEq, Repr

/-- One slot per locus; `none` = no genotype set at that locus. -/
abbrev GenotypeStore := List (Option MonolocusGenotype)

structure Individual where
  name : String
  genotype : Option GenotypeStore
deriving DecidableEq, Repr

structure Group where
  id : Nat
  individuals : List Individual
deriving DecidableEq, Repr

structure DataSet where
  loci : Option (List LocusInfo)
  groups : List Group
deriving DecidableEq, Repr

def dsEmpty : DataSet := ⟨none, []⟩

def initAnalyzedLoci (ds : DataSet) (k : Nat) : DataSet :=
  { ds with loci := some (List.replicate k ⟨"", []⟩) }

def addEmptyGroup (ds : DataSet) (gid : Nat) : DataSet :=
  { ds with groups := ds.groups ++ [⟨gid, []⟩] }

def addIndividualToGroup0 (ds : DataSet) (nm : String) : DataSet :=
  { ds with groups := ds.groups.map (fun g =>
      if g.id = 0 then { g with individuals := g.individuals ++ [⟨nm, none⟩] } else g) }

def getGroup0 (ds : DataSet) : Option Group :=
  ds.groups.find? (fun g => decide (g.id = 0))

def getIndividualFromGroup0 (ds : DataSet) (nm : String) : Option Individual :=
  (getGroup0 ds).bind (fun g => g.individuals.find? (fun ind => decide (ind.name = nm)))

def indGenotype (ds : DataSet) (nm : String) : Option GenotypeStore :=
  match getIndividualFromGroup0 ds nm with
  | some ind => ind.genotype
  | none => none

/-- Update the genotype of the individual called `nm` in group 0. -/
def updGenotype (ds : DataSet) (nm : String)
    (f : Option GenotypeStore → Option GenotypeStore) : DataSet :=
  { ds with groups := ds.groups.map (fun g =>
      if g.id = 0 then
        { g with individuals := g.individuals.map (fun ind =>
            if ind.name = nm then { ind with genotype := f ind.genotype } else ind) }
      else g) }

/-- `AnalyzedLoci::addAlleleInfoByLocusName`: register the allele label
under the locus with the given name (first-seen-wins when the label
recurs under the same locus, per the spec's contract). -/
def addAlleleByLocusName (loci : List LocusInfo) (lname a : String) : List LocusInfo :=
  loci.map (fun L =>
    if L.name = lname then
      (if a ∈ L.alleles then L else ⟨L.name, L.alleles ++ [a]⟩)
    else L)

def lociOf (ds : DataSet) : List LocusInfo := ds.loci.getD []

def getLocusByName (ds : DataSet) (nm : String) : Option LocusInfo :=
  (lociOf ds).find? (fun L => decide (L.name = nm))

def locusPositionByName (ds : DataSet) (nm : String) : Option Nat :=
  (lociOf ds).findIdx? (fun L => decide (L.name = nm))

/-- `LocusInfo::getAlleleInfoKey`: the key of an allele label is its
position in the locus's allele registry. -/
def alleleKey (L : LocusInfo) (a : String) : Option Nat :=
  L.alleles.findIdx? (fun b => decide (b = a))

/-! ## Importer stages (`GeneMapperCsvExport::read`) -/

/-- Positions of the "Allele …" columns (lines 158-161). -/
def alleleCols (dt : DataTable) : List Nat :=
  (List.range dt.colNames.length).filter
    (fun i => hasSub ("Allele ".toList) (dt.colNames.getD i "").toList)

/-- Allele registration for one "Allele" column (inner loop of
lines 170-185): for each marker, collect the non-empty cells at that
marker's rows, deduplicate, and register only the head `m_allele[0]`. -/
def registerColumn (dt : DataTable) (markers : List String) (aPos : List (List Nat))
    (i : Nat) (al : List LocusInfo) : List LocusInfo :=
  (List.range markers.length).foldl (fun al2 j =>
    match uniqueFirst (((aPos.getD j []).map (fun k => cell dt k i)).filter
        (fun v => decide (v ≠ ""))) with
    | [] => al2
    | a :: _ => addAlleleByLocusName al2 (markers.getD j "") a) al

/-- Lines 163-185: one locus per marker, then the allele registration loop. -/
def registerAlleles (dt : DataTable) (aCols : List Nat) (markers : List String)
    (aPos : List (List Nat)) : List LocusInfo :=
  aCols.foldl (fun al i => registerColumn dt markers aPos i al)
    (markers.map (fun mk => ⟨mk, []⟩))

inductive ReadError where
  | missingColumn
  | locusNotFound
  | alleleNotFound
  | individualNotFound
deriving DecidableEq, Repr

/-- Observable mutation events of the genotype-assembly loop:
`initIndividualGenotypeInGroup` and
`setIndividualMonolocusGenotypeInGroup` calls. -/
inductive Event where
  | initG (nm : String)
  | setG (nm : String) (locusPos : Nat) (keys : List Nat)
deriving DecidableEq, Repr

def initNames (tr : List Event) : List String :=
  tr.filterMap (fun e => match e with | .initG nm => some nm | _ => none)

/-- Lines 195-201: the allele keys of row `i`, scanning the allele
columns left to right; a lookup of an unregistered locus or allele
label aborts with the corresponding exception. -/
def rowKeys (ds : DataSet) (dtF : DataTable) (markIdx i : Nat) :
    List Nat → Except ReadError (List Nat)
  | [] => .ok []
  | j :: js =>
    if isEmptyStr (cell dtF i j) then rowKeys ds dtF markIdx i js
    else
      match getLocusByName ds (cell dtF i markIdx) with
      | none => .error .locusNotFound
      | some L =>
        match alleleKey L (cell dtF i j) with
        | none => .error .alleleNotFound
        | some k =>
          match rowKeys ds dtF markIdx i js with
          | .ok ks => .ok (k :: ks)
          | .error e => .error e

/-- Lines 193-210, one row: collect and deduplicate the allele keys,
initialize the individual's genotype store if absent, and set the
monolocus genotype when at least one key was produced.  Errors carry
the dataset state reached so far (the C++ mutates in place). -/
def assembleRow (dtF : DataTable) (aCols : List Nat) (indIdx markIdx : Nat)
    (st : DataSet × List Event) (i : Nat) :
    Except (ReadError × DataSet) (DataSet × List Event) :=
  match rowKeys st.1 dtF markIdx i aCols with
  | .error e => .error (e, st.1)
  | .ok ks0 =>
    let ks := uniqueFirst ks0
    let nm := cell dtF i indIdx
    match getIndividualFromGroup0 st.1 nm with
    | none => .error (.individualNotFound, st.1)
    | some ind =>
      let locN := (lociOf st.1).length
      let st1 : DataSet × List Event :=
        if ind.genotype.isSome then st
        else (updGenotype st.1 nm (fun _ => some (List.replicate locN none)),
              st.2 ++ [.initG nm])
      if ks.isEmpty then .ok st1
      else
        match locusPositionByName st1.1 (cell dtF i markIdx) with
        | none => .error (.locusNotFound, st1.1)
        | some lp =>
          .ok (updGenotype st1.1 nm (fun g => g.map (fun store => store.set lp (some ⟨ks⟩))),
               st1.2 ++ [.setG nm lp ks])

/-- Error-propagating fold over row indices. -/
def foldE {β ε : Type} (f : β → Nat → Except ε β) : β → List Nat → Except ε β
  | b, [] => .ok b
  | b, i :: is =>
    match f b i with
    | .ok b' => foldE f b' is
    | .error e => .error e

/-- Lines 118-186: the dataset state just before the genotype-assembly
loop: loci initialized (line 142), group 0 added (line 147), one
individual per distinct final sample name (lines 148-151), and the
analyzed loci with their registered alleles (lines 156-186). -/
def importPrep (dt : DataTable) (ds0 : DataSet) (indIdx markIdx : Nat) : DataSet :=
  { (uniqueFirst (columnAt (fixDuplicates dt indIdx markIdx) indIdx)).foldl
      addIndividualToGroup0
      (addEmptyGroup
        (initAnalyzedLoci ds0 (uniqueFirst (columnAt dt markIdx)).length) 0) with
    loci := some (registerAlleles (fixDuplicates dt indIdx markIdx)
      (alleleCols (fixDuplicates dt indIdx markIdx))
      (uniqueFirst (columnAt dt markIdx))
      ((uniqueFirst (columnAt dt markIdx)).map
        (whichAll (columnAt (fixDuplicates dt indIdx markIdx) markIdx)))) }

/-- `GeneMapperCsvExport::read` (lines 58-246).  Returns the final
dataset together with the trace of genotype init/set events, or the
first error together with the dataset state reached at that point. -/
def read (dt : DataTable) (ds0 : DataSet) :
    Except (ReadError × DataSet) (DataSet × List Event) :=
  match columnIndex dt "Sample Name", columnIndex dt "Marker" with
  | some indIdx, some markIdx =>
    foldE (assembleRow (fixDuplicates dt indIdx markIdx)
                       (alleleCols (fixDuplicates dt indIdx markIdx)) indIdx markIdx)
      (importPrep dt ds0 indIdx markIdx, [])
      (List.range (fixDuplicates dt indIdx markIdx).rows.length)
  | _, _ => .error (.missingColumn, ds0)

def readOut (dt : DataTable) : Option (DataSet × List Event) :=
  match read dt dsEmpty with
  | .ok out => some out
  | .error _ => none

def readErrFull (dt : DataTable) : Option (ReadError × DataSet) :=
  match read dt dsEmpty with
  | .ok _ => none
  | .error e => some e

def group0Names (ds : DataSet) : List String :=
  ((getGroup0 ds).map (fun g => g.individuals.map (fun ind => ind.name))).getD []

/-! ## Concrete input tables used by counterexamples and witnesses -/

/-- Two rows with identical "Sample Name" and "Marker" values. -/
def dtC1 : DataTable := ⟨["Sample Name", "Marker"], [["A", "M"], ["A", "M"]]⟩

/-- The dataset produced by importing `dtC1`. -/
def dsC1 : DataSet :=
  ⟨some [⟨"M", []⟩], [⟨0, [⟨"A", some [none]⟩, ⟨"A_2", some [none]⟩]⟩]⟩

/-- One marker, one "Allele 1" column with two distinct labels. -/
def dtC2 : DataTable :=
  ⟨["Sample Name", "Marker", "Allele 1"], [["A", "M", "056"], ["B", "M", "057"]]⟩

/-- The dataset state at the moment the import of `dtC2` fails. -/
def dsC2 : DataSet :=
  ⟨some [⟨"M", ["056"]⟩], [⟨0, [⟨"A", some [some ⟨[0]⟩]⟩, ⟨"B", none⟩]⟩]⟩

/-- A table already containing the name "A_2" that the renaming of a
duplicate "A" row also produces. -/
def dtC3 : DataTable :=
  ⟨["Sample Name", "Marker"], [["A", "M"], ["A", "M"], ["A_2", "M"]]⟩

/-- The dataset produced by importing `dtC3`. -/
def dsC3 : DataSet :=
  ⟨some [⟨"M", []⟩], [⟨0, [⟨"A", some [none]⟩, ⟨"A_2", some [none]⟩]⟩]⟩

/-- A single row whose only allele cell is empty. -/
def dtC5 : DataTable := ⟨["Sample Name", "Marker", "Allele 1"], [["A", "M", ""]]⟩

/-- The dataset produced by importing `dtC5`. -/
def dsC5 : DataSet := ⟨some [⟨"M", []⟩], [⟨0, [⟨"A", some [none]⟩]⟩]⟩

/-- Duplicate rows where only the first carries an allele call. -/
def dtW5 : DataTable :=
  ⟨["Sample Name", "Marker", "Allele 1"], [["A", "M", "x"], ["A", "M", ""]]⟩

/-- The dataset produced by importing `dtW5`. -/
def dsW5 : DataSet :=
  ⟨some [⟨"M", ["x"]⟩], [⟨0, [⟨"A", some [some ⟨[0]⟩]⟩, ⟨"A_2", some [none]⟩]⟩]⟩

/-- Two samples sharing one allele label at one marker. -/
def dtW10 : DataTable :=
  ⟨["Sample Name", "Marker", "Allele 1"], [["A", "M", "x"], ["B", "M", "x"]]⟩

/-- The dataset produced by importing `dtW10`. -/
def dsW10 : DataSet :=
  ⟨some [⟨"M", ["x"]⟩],
   [⟨0, [⟨"A", some [some ⟨[0]⟩]⟩, ⟨"B", some [some ⟨[0]⟩]⟩]⟩]⟩

/-- A table whose header lacks the "Marker" column. -/
def dtW4 : DataTable := ⟨["Sample Name", "Allele 1"], [["A", "056"]]⟩

/-! ## Claim C4 -/

/-- Claim C4: for every input table whose header lacks a "Marker" (or
"Sample Name") column, the importer fails with a missing-column error
and the destination dataset is left completely unmodified (the error is
raised at lines 102-108, before `initAnalyzedLoci` at line 142 performs
the first mutation). -/
theorem c4_missing_column (dt : DataTable) (ds : DataSet)
    (h : columnIndex dt "Marker" = none ∨ columnIndex dt "Sample Name" = none) :
    read dt ds = .error (.missingColumn, ds) := by
  rcases h with h | h
  · unfold read
    rw [h]
    cases columnIndex dt "Sample Name" <;> rfl
  · unfold read
    rw [h]

/-- Witness for C4 at the concrete table `dtW4` (no "Marker" column):
the import fails with `missingColumn` and the dataset is untouched. -/
theorem c4_missing_column_witness :
    columnIndex dtW4 "Marker" = none
    ∧ read dtW4 dsEmpty = .error (.missingColumn, dsEmpty) :=
  ⟨by decide, c4_missing_column dtW4 dsEmpty (Or.inl (by decide))⟩

/-! ## Claim C1 (counterexample) -/

/-- Claim C1 is false as stated: importing the table `dtC1`, whose two
rows have identical "Sample Name" and "Marker" values, yields the
sample names `["A", "A_2"]`, not `["A", "A_1"]`: the rename at line 113
appends `occurrenceCounter + 1 = 2` for the second occurrence. -/
theorem c1_counterexample :
    readOut dtC1 = some (dsC1, [.initG "A", .initG "A_2"])
    ∧ group0Names dsC1 = ["A", "A_2"]
    ∧ group0Names dsC1 ≠ ["A", "A_1"] := by decide

/-! ## Claim C2 (code bug) -/

/-- Claim C2 is right about the intent and the code is wrong: for the
table `dtC2` the marker "M" has the two distinct non-empty labels
"056" and "057" in the "Allele 1" column, but the loop at lines 170-185
registers only `m_allele[0] = "056"`.  The genotype-assembly loop then
calls `getAlleleInfoKey("057")` (line 198) on a locus whose registry
lacks "057", so the import aborts with an allele-not-found error: the
code contradicts its own later lookup. -/
theorem c2_bug_eval :
    readErrFull dtC2 = some (.alleleNotFound, dsC2)
    ∧ (∀ L ∈ lociOf dsC2, L.alleles = ["056"])
    ∧ (∀ L ∈ lociOf dsC2, "057" ∉ L.alleles) := by decide

/-! ## Claim C5 (counterexample) -/

/-- Claim C5 is false as stated: importing `dtC5` (one row whose only
allele cell is empty) initializes individual "A"'s genotype storage
(the guard at line 206 checks only `hasGenotype`), although no locus
entry is ever written for "A" — the trace holds an `initG` and no
`setG`, and every slot of the store is `none`. -/
theorem c5_counterexample :
    readOut dtC5 = some (dsC5, [.initG "A"])
    ∧ indGenotype dsC5 "A" = some [none] := by decide

/-! ## Preservation lemmas for the assembly loop -/

theorem find?_map_pres {α β : Type} (g : α → β) (p : β → Bool) (q : α → Bool)
    (hpq : ∀ a, p (g a) = q a) (l : List α) :
    (l.map g).find? p = (l.find? q).map g := by
  induction l with
  | nil => rfl
  | cons a l ih =>
    cases hq : q a with
    | true => simp [List.find?_cons, hpq, hq]
    | false => simp [List.find?_cons, hpq, hq, ih]

theorem updGenotype_loci (ds : DataSet) (nm : String)
    (f : Option GenotypeStore → Option GenotypeStore) :
    (updGenotype ds nm f).loci = ds.loci := rfl

theorem updGenotype_group0Names (ds : DataSet) (nm : String)
    (f : Option GenotypeStore → Option GenotypeStore) :
    group0Names (updGenotype ds nm f) = group0Names ds := by
  unfold group0Names getGroup0 updGenotype
  rw [find?_map_pres _ _ (fun g => decide (g.id = 0)) (fun g => by dsimp only; split <;> rfl)]
  cases hG : ds.groups.find? (fun g => decide (g.id = 0)) with
  | none => rfl
  | some g =>
    have hid : g.id = 0 := by simpa using List.find?_some hG
    simp only [Option.map, Option.getD, hid, if_pos, List.map_map]
    exact List.map_congr_left (fun ind _ => by
      simp only [Function.comp_apply]
      split <;> rfl)

theorem getIndividual_updGenotype (ds : DataSet) (nm' nm : String)
    (f : Option GenotypeStore → Option GenotypeStore) :
    getIndividualFromGroup0 (updGenotype ds nm' f) nm =
      (getIndividualFromGroup0 ds nm).map
        (fun ind => if ind.name = nm' then { ind with genotype := f ind.genotype } else ind) := by
  unfold getIndividualFromGroup0 getGroup0 updGenotype
  rw [find?_map_pres _ _ (fun g => decide (g.id = 0)) (fun g => by dsimp only; split <;> rfl)]
  cases hG : ds.groups.find? (fun g => decide (g.id = 0)) with
  | none => rfl
  | some g =>
    have hid : g.id = 0 := by simpa using List.find?_some hG
    simp only [Option.map, Option.bind, hid, if_pos]
    exact find?_map_pres _ _ _ (fun ind => by split <;> rfl) g.individuals

theorem indGenotype_updGenotype (ds : DataSet) (nm' nm : String)
    (f : Option GenotypeStore → Option GenotypeStore) :
    indGenotype (updGenotype ds nm' f) nm =
      match getIndividualFromGroup0 ds nm with
      | none => none
      | some ind => if ind.name = nm' then f ind.genotype else ind.genotype := by
  unfold indGenotype
  rw [getIndividual_updGenotype]
  cases getIndividualFromGroup0 ds nm with
  | none => rfl
  | some ind =>
    simp only [Option.map]
    by_cases hnm : ind.name = nm' <;> simp [hnm]

theorem getIndividual_name (ds : DataSet) (nm : String) (ind : Individual)
    (h : getIndividualFromGroup0 ds nm = some ind) : ind.name = nm := by
  unfold getIndividualFromGroup0 at h
  cases hG : getGroup0 ds with
  | none => rw [hG] at h; cases h
  | some g =>
    rw [hG] at h
    simpa using List.find?_some h

/-- Invariants preserved by every successful step survive `foldE`. -/
theorem foldE_inv {β ε : Type} (P : β → Prop) (f : β → Nat → Except ε β)
    (hstep : ∀ b i b', P b → f b i = .ok b' → P b') :
    ∀ (is : List Nat) (b b' : β), P b → foldE f b is = .ok b' → P b' := by
  intro is
  induction is with
  | nil =>
    intro b b' hb h
    rw [foldE] at h
    injection h with h
    exact h ▸ hb
  | cons i is ih =>
    intro b b' hb h
    rw [foldE] at h
    cases hf : f b i with
    | ok b1 =>
      rw [hf] at h
      exact ih b1 b' (hstep b i b1 hb hf) h
    | error e => rw [hf] at h; cases h

/-- A successful `assembleRow` step never changes the name list of
group 0: it only rewrites genotypes of existing individuals. -/
theorem assembleRow_group0Names (dtF : DataTable) (aCols : List Nat)
    (indIdx markIdx : Nat) (st st' : DataSet × List Event) (i : Nat)
    (h : assembleRow dtF aCols indIdx markIdx st i = .ok st') :
    group0Names st'.1 = group0Names st.1 := by
  unfold assembleRow at h
  cases hk : rowKeys st.1 dtF markIdx i aCols with
  | error e => rw [hk] at h; cases h
  | ok ks0 =>
    rw [hk] at h
    cases hInd : getIndividualFromGroup0 st.1 (cell dtF i indIdx) with
    | none => simp only [hInd] at h; cases h
    | some ind =>
      simp only [hInd] at h
      split at h
      · injection h with h
        rw [← h]
        split <;> simp [updGenotype_group0Names]
      · split at h
        · cases h
        · injection h with h
          rw [← h]
          dsimp only
          rw [updGenotype_group0Names]
          split <;> simp [updGenotype_group0Names]

/-- A successful `assembleRow` step never changes the analyzed loci. -/
theorem assembleRow_loci (dtF : DataTable) (aCols : List Nat)
    (indIdx markIdx : Nat) (st st' : DataSet × List Event) (i : Nat)
    (h : assembleRow dtF aCols indIdx markIdx st i = .ok st') :
    st'.1.loci = st.1.loci := by
  unfold assembleRow at h
  cases hk : rowKeys st.1 dtF markIdx i aCols with
  | error e => rw [hk] at h; cases h
  | ok ks0 =>
    rw [hk] at h
    cases hInd : getIndividualFromGroup0 st.1 (cell dtF i indIdx) with
    | none => simp only [hInd] at h; cases h
    | some ind =>
      simp only [hInd] at h
      split at h
      · injection h with h
        rw [← h]
        split <;> simp [updGenotype_loci]
      · split at h
        · cases h
        · injection h with h
          rw [← h]
          dsimp only
          rw [updGenotype_loci]
          split <;> simp [updGenotype_loci]

/-! ## Claim C3 -/

theorem foldl_addInd (names : List String) (L : Option (List LocusInfo))
    (inds : List Individual) :
    (names.foldl addIndividualToGroup0 ⟨L, [⟨0, inds⟩]⟩) =
      ⟨L, [⟨0, inds ++ names.map (fun nm => ⟨nm, none⟩)⟩]⟩ := by
  induction names generalizing inds with
  | nil => simp
  | cons nm names ih =>
    rw [List.foldl_cons]
    have hstep : addIndividualToGroup0 ⟨L, [⟨0, inds⟩]⟩ nm =
        ⟨L, [⟨0, inds ++ [⟨nm, none⟩]⟩]⟩ := by
      simp [addIndividualToGroup0]
    rw [hstep, ih]
    simp

theorem group0Names_shape (L : Option (List LocusInfo)) (inds : List Individual) :
    group0Names ⟨L, [⟨0, inds⟩]⟩ = inds.map (fun ind => ind.name) := by
  simp [group0Names, getGroup0, List.find?]

/-- The names of the individuals registered in group 0 just before the
genotype-assembly loop are exactly the deduplicated final sample names. -/
theorem group0Names_importPrep (dt : DataTable) (indIdx markIdx : Nat) :
    group0Names (importPrep dt dsEmpty indIdx markIdx) =
      uniqueFirst (columnAt (fixDuplicates dt indIdx markIdx) indIdx) := by
  unfold importPrep
  have hbase : addEmptyGroup (initAnalyzedLoci dsEmpty
      (uniqueFirst (columnAt dt markIdx)).length) 0 =
      ⟨some (List.replicate (uniqueFirst (columnAt dt markIdx)).length ⟨"", []⟩), [⟨0, []⟩]⟩ := by
    simp [addEmptyGroup, initAnalyzedLoci, dsEmpty]
  rw [hbase, foldl_addInd]
  have : group0Names ⟨some (registerAlleles (fixDuplicates dt indIdx markIdx)
        (alleleCols (fixDuplicates dt indIdx markIdx))
        (uniqueFirst (columnAt dt markIdx))
        ((uniqueFirst (columnAt dt markIdx)).map
          (whichAll (columnAt (fixDuplicates dt indIdx markIdx) markIdx)))),
      [⟨0, [] ++ (uniqueFirst (columnAt (fixDuplicates dt indIdx markIdx) indIdx)).map
        (fun nm => ⟨nm, none⟩)⟩]⟩ =
      ([] ++ (uniqueFirst (columnAt (fixDuplicates dt indIdx markIdx) indIdx)).map
        (fun nm => (⟨nm, none⟩ : Individual))).map (fun ind : Individual => ind.name) :=
    group0Names_shape _ _
  rw [this]
  simp only [List.nil_append, List.map_map]
  exact (List.map_congr_left (fun nm _ => rfl)).trans (List.map_id _)

/-- Claim C3: after any completed import (from the empty dataset), the
individual identifiers registered in the dataset are pairwise distinct:
registration at lines 148-151 iterates over
`VectorTools::unique(ind_names)`, and the assembly loop only rewrites
genotypes of existing individuals. -/
theorem c3_unique_individuals (dt : DataTable) (ds' : DataSet) (tr : List Event)
    (h : readOut dt = some (ds', tr)) : (group0Names ds').Nodup := by
  unfold readOut at h
  cases hR : read dt dsEmpty with
  | error e => rw [hR] at h; cases h
  | ok out =>
    rw [hR] at h
    injection h with h
    unfold read at hR
    cases hI : columnIndex dt "Sample Name" with
    | none => rw [hI] at hR; cases hR
    | some indIdx =>
      cases hM : columnIndex dt "Marker" with
      | none => rw [hI, hM] at hR; cases hR
      | some markIdx =>
        rw [hI, hM] at hR
        have hpres := foldE_inv
          (fun st => group0Names st.1 = group0Names (importPrep dt dsEmpty indIdx markIdx))
          (assembleRow (fixDuplicates dt indIdx markIdx)
            (alleleCols (fixDuplicates dt indIdx markIdx)) indIdx markIdx)
          (fun b i b' hb hstep =>
            (assembleRow_group0Names _ _ _ _ _ _ _ hstep).trans hb)
          (List.range (fixDuplicates dt indIdx markIdx).rows.length)
          (importPrep dt dsEmpty indIdx markIdx, []) out rfl hR
        rw [h] at hpres
        rw [hpres, group0Names_importPrep]
        exact uniqueFirst_nodup _

/-- Witness for C3 at the concrete table `dtC3`, which already
contains a row named "A_2" next to two duplicate "A" rows: the import
succeeds and the registered names are still pairwise distinct. -/
theorem c3_unique_individuals_witness :
    readOut dtC3 = some (dsC3, [.initG "A", .initG "A_2"])
    ∧ (group0Names dsC3).Nodup :=
  ⟨by decide, c3_unique_individuals dtC3 dsC3 [.initG "A", .initG "A_2"] (by decide)⟩

/-! ## Claim C5 (amended form) -/

theorem initNames_append_initG (tr : List Event) (nm : String) :
    initNames (tr ++ [.initG nm]) = initNames tr ++ [nm] := by
  simp [initNames, List.filterMap_append]

theorem initNames_append_setG (tr : List Event) (nm : String) (lp : Nat) (ks : List Nat) :
    initNames (tr ++ [.setG nm lp ks]) = initNames tr := by
  simp [initNames, List.filterMap_append]

theorem indGenotype_isSome_updGenotype (ds : DataSet) (nm' nm : String)
    (f : Option GenotypeStore → Option GenotypeStore)
    (hf : ∀ g : Option GenotypeStore, g.isSome = true → (f g).isSome = true)
    (h : (indGenotype ds nm).isSome = true) :
    (indGenotype (updGenotype ds nm' f) nm).isSome = true := by
  rw [indGenotype_updGenotype]
  unfold indGenotype at h
  cases hInd : getIndividualFromGroup0 ds nm with
  | none => rw [hInd] at h; simp at h
  | some ind =>
    rw [hInd] at h
    dsimp only
    split
    · exact hf _ h
    · exact h

/-- The invariant of the genotype-assembly loop: every individual is
initialized at most once (trace names are distinct), initialized
individuals have genotype storage, and every write carries at least
one allele key. -/
def assemblyInv (st : DataSet × List Event) : Prop :=
  (initNames st.2).Nodup
  ∧ (∀ nm, nm ∈ initNames st.2 → (indGenotype st.1 nm).isSome = true)
  ∧ (∀ nm lp ks, Event.setG nm lp ks ∈ st.2 → ks ≠ [])

theorem assemblyInv_set (st : DataSet × List Event) (nm : String) (lp : Nat)
    (ks : List Nat) (hks : ks ≠ []) (hP : assemblyInv st) :
    assemblyInv (updGenotype st.1 nm (fun g => g.map (fun store => store.set lp (some ⟨ks⟩))),
      st.2 ++ [.setG nm lp ks]) := by
  obtain ⟨h1, h2, h3⟩ := hP
  refine ⟨?_, ?_, ?_⟩
  · rw [initNames_append_setG]; exact h1
  · intro nm' hmem
    rw [initNames_append_setG] at hmem
    exact indGenotype_isSome_updGenotype _ _ _ _
      (fun g hg => by cases g <;> simp_all) (h2 nm' hmem)
  · intro nm' lp' ks' hmem
    rcases List.mem_append.1 hmem with hmem | hmem
    · exact h3 _ _ _ hmem
    · simp only [List.mem_singleton, Event.setG.injEq] at hmem
      exact hmem.2.2 ▸ hks

theorem assemblyInv_init (st : DataSet × List Event) (nm : String) (ind : Individual)
    (hlook : getIndividualFromGroup0 st.1 nm = some ind)
    (hg : ind.genotype.isSome = false) (hP : assemblyInv st) (locN : Nat) :
    assemblyInv (updGenotype st.1 nm (fun _ => some (List.replicate locN none)),
      st.2 ++ [.initG nm]) := by
  obtain ⟨h1, h2, h3⟩ := hP
  have hname : ind.name = nm := getIndividual_name _ _ _ hlook
  have hfresh : nm ∉ initNames st.2 := by
    intro hmem
    have hsome := h2 nm hmem
    unfold indGenotype at hsome
    rw [hlook] at hsome
    rw [hg] at hsome
    cases hsome
  refine ⟨?_, ?_, ?_⟩
  · rw [initNames_append_initG, List.nodup_append]
    exact ⟨h1, List.nodup_singleton _, fun a ha hb => by
      rw [List.mem_singleton] at hb
      exact hfresh (hb ▸ ha)⟩
  · intro nm' hmem
    rw [initNames_append_initG] at hmem
    rcases List.mem_append.1 hmem with hmem | hmem
    · exact indGenotype_isSome_updGenotype _ _ _ _ (fun g _ => rfl) (h2 nm' hmem)
    · rw [List.mem_singleton] at hmem
      subst hmem
      rw [indGenotype_updGenotype, hlook]
      dsimp only
      rw [if_pos hname]
      rfl
  · intro nm' lp' ks' hmem
    rcases List.mem_append.1 hmem with hmem | hmem
    · exact h3 _ _ _ hmem
    · simp at hmem

theorem assembleRow_inv (dtF : DataTable) (aCols : List Nat)
    (indIdx markIdx : Nat) (st st' : DataSet × List Event) (i : Nat)
    (h : assembleRow dtF aCols indIdx markIdx st i = .ok st')
    (hP : assemblyInv st) : assemblyInv st' := by
  unfold assembleRow at h
  cases hk : rowKeys st.1 dtF markIdx i aCols with
  | error e => rw [hk] at h; cases h
  | ok ks0 =>
    rw [hk] at h
    cases hInd : getIndividualFromGroup0 st.1 (cell dtF i indIdx) with
    | none => simp only [hInd] at h; cases h
    | some ind =>
      simp only [hInd] at h
      by_cases hg : ind.genotype.isSome = true
      · rw [if_pos hg] at h
        by_cases hks : (uniqueFirst ks0).isEmpty = true
        · rw [if_pos hks] at h
          injection h with h
          exact h ▸ hP
        · rw [if_neg hks] at h
          cases hlp : locusPositionByName st.1 (cell dtF i markIdx) with
          | none => rw [hlp] at h; cases h
          | some lp =>
            rw [hlp] at h
            injection h with h
            refine h ▸ assemblyInv_set st _ lp _ ?_ hP
            intro hnil
            exact hks (by rw [hnil]; rfl)
      · rw [if_neg hg] at h
        have hInv1 := assemblyInv_init st (cell dtF i indIdx) ind hInd
          (by simpa using hg) hP (lociOf st.1).length
        by_cases hks : (uniqueFirst ks0).isEmpty = true
        · rw [if_pos hks] at h
          injection h with h
          exact h ▸ hInv1
        · rw [if_neg hks] at h
          dsimp only at h
          cases hlp : locusPositionByName
              (updGenotype st.1 (cell dtF i indIdx)
                (fun _ => some (List.replicate (lociOf st.1).length none)))
              (cell dtF i markIdx) with
          | none => rw [hlp] at h; cases h
          | some lp =>
            rw [hlp] at h
            injection h with h
            refine h ▸ assemblyInv_set _ _ lp _ ?_ hInv1
            intro hnil
            exact hks (by rw [hnil]; rfl)

/-- Claim C5 (amended): during genotype assembly every individual's
genotype storage is initialized at most once — on the individual's
first processed row, whether or not that row yields allele keys — and
a per-locus genotype entry is written for a row only when at least one
allele key was produced from the row's non-empty allele cells. -/
theorem c5_genotype_discipline (dt : DataTable) (ds' : DataSet) (tr : List Event)
    (h : readOut dt = some (ds', tr)) :
    (initNames tr).Nodup
    ∧ (∀ nm lp ks, Event.setG nm lp ks ∈ tr → ks ≠ [])
    ∧ (∀ nm, nm ∈ initNames tr → (indGenotype ds' nm).isSome = true) := by
  unfold readOut at h
  cases hR : read dt dsEmpty with
  | error e => rw [hR] at h; cases h
  | ok out =>
    rw [hR] at h
    injection h with h
    unfold read at hR
    cases hI : columnIndex dt "Sample Name" with
    | none => rw [hI] at hR; cases hR
    | some indIdx =>
      cases hM : columnIndex dt "Marker" with
      | none => rw [hI, hM] at hR; cases hR
      | some markIdx =>
        rw [hI, hM] at hR
        have hpres := foldE_inv assemblyInv
          (assembleRow (fixDuplicates dt indIdx markIdx)
            (alleleCols (fixDuplicates dt indIdx markIdx)) indIdx markIdx)
          (fun b i b' hb hstep => assembleRow_inv _ _ _ _ b b' i hstep hb)
          (List.range (fixDuplicates dt indIdx markIdx).rows.length)
          (importPrep dt dsEmpty indIdx markIdx, []) out
          ⟨List.nodup_nil, fun nm hmem => absurd hmem (List.not_mem_nil nm),
           fun nm lp ks hmem => absurd hmem (List.not_mem_nil _)⟩ hR
        rw [h] at hpres
        exact ⟨hpres.1, hpres.2.2, hpres.2.1⟩

/-- Witness for C5 (amended) at `dtW5`: the duplicate row "A"/"M" with
an empty allele cell is renamed "A_2" and initialized without any
write, the first row is initialized once and written once with key 0. -/
theorem c5_genotype_discipline_witness :
    readOut dtW5 = some (dsW5, [.initG "A", .setG "A" 0 [0], .initG "A_2"])
    ∧ (initNames [.initG "A", .setG "A" 0 [0], .initG "A_2"]).Nodup
    ∧ (∀ nm lp ks,
        Event.setG nm lp ks ∈ [Event.initG "A", .setG "A" 0 [0], .initG "A_2"] → ks ≠ []) :=
  ⟨by decide,
   (c5_genotype_discipline dtW5 dsW5 [.initG "A", .setG "A" 0 [0], .initG "A_2"] (by decide)).1,
   (c5_genotype_discipline dtW5 dsW5 [.initG "A", .setG "A" 0 [0], .initG "A_2"] (by decide)).2.1⟩

/-! ## Claim C10 -/

/-- Locus name at position `p` (default out of range). -/
def nameAtD (al : List LocusInfo) (p : Nat) : String := (al.getD p ⟨"", []⟩).name

/-- Number of registered alleles at position `p` (default out of range). -/
def alLenAtD (al : List LocusInfo) (p : Nat) : Nat := (al.getD p ⟨"", []⟩).alleles.length

theorem addAllele_length (al : List LocusInfo) (lname a : String) :
    (addAlleleByLocusName al lname a).length = al.length := by
  simp [addAlleleByLocusName]

theorem addAllele_nameAtD (al : List LocusInfo) (lname a : String) (p : Nat) :
    nameAtD (addAlleleByLocusName al lname a) p = nameAtD al p := by
  unfold nameAtD
  by_cases hp : p < al.length
  · rw [List.getD_eq_getElem _ _ (by rw [addAllele_length]; exact hp),
      List.getD_eq_getElem _ _ hp]
    unfold addAlleleByLocusName
    rw [List.getElem_map]
    split
    · split <;> rfl
    · rfl
  · rw [List.getD_eq_default _ _ (by rw [addAllele_length]; omega),
      List.getD_eq_default _ _ (by omega)]

theorem addAllele_alLenAtD (al : List LocusInfo) (lname a : String) (p : Nat) :
    alLenAtD (addAlleleByLocusName al lname a) p ≤
      alLenAtD al p + (if nameAtD al p = lname then 1 else 0) := by
  unfold alLenAtD nameAtD
  by_cases hp : p < al.length
  · rw [List.getD_eq_getElem _ _ (by rw [addAllele_length]; exact hp),
      List.getD_eq_getElem _ _ hp]
    unfold addAlleleByLocusName
    rw [List.getElem_map]
    split
    · split
      · simp
      · simp
    · simp
  · rw [List.getD_eq_default _ _ (by rw [addAllele_length]; omega),
      List.getD_eq_default _ _ (by omega)]
    simp

/-- One pass of the allele-registration inner loop (over an arbitrary
marker index list `js`) preserves the locus list's length and names,
and grows the registry at position `p` by at most the number of indices
`j ∈ js` whose marker equals the locus name at `p`. -/
theorem registerColumn_fold_bound (dt : DataTable) (markers : List String)
    (aPos : List (List Nat)) (i : Nat) :
    ∀ (js : List Nat) (al : List LocusInfo) (p : Nat),
      ((js.foldl (fun al2 j =>
          match uniqueFirst (((aPos.getD j []).map (fun k => cell dt k i)).filter
              (fun v => decide (v ≠ ""))) with
          | [] => al2
          | a :: _ => addAlleleByLocusName al2 (markers.getD j "") a) al).length = al.length)
      ∧ (nameAtD (js.foldl (fun al2 j =>
          match uniqueFirst (((aPos.getD j []).map (fun k => cell dt k i)).filter
              (fun v => decide (v ≠ ""))) with
          | [] => al2
          | a :: _ => addAlleleByLocusName al2 (markers.getD j "") a) al) p = nameAtD al p)
      ∧ (alLenAtD (js.foldl (fun al2 j =>
          match uniqueFirst (((aPos.getD j []).map (fun k => cell dt k i)).filter
              (fun v => decide (v ≠ ""))) with
          | [] => al2
          | a :: _ => addAlleleByLocusName al2 (markers.getD j "") a) al) p ≤
          alLenAtD al p +
            js.countP (fun j => decide (nameAtD al p = markers.getD j ""))) := by
  intro js
  induction js with
  | nil => intro al p; exact ⟨rfl, rfl, by simp⟩
  | cons j js ih =>
    intro al p
    rw [List.foldl_cons]
    cases hu : uniqueFirst (((aPos.getD j []).map (fun k => cell dt k i)).filter
        (fun v => decide (v ≠ ""))) with
    | nil =>
      simp only [hu]
      obtain ⟨ihl, ihn, ihb⟩ := ih al p
      refine ⟨ihl, ihn, ?_⟩
      calc alLenAtD _ p ≤ alLenAtD al p + js.countP
            (fun j => decide (nameAtD al p = markers.getD j "")) := ihb
        _ ≤ _ := by rw [List.countP_cons]; omega
    | cons a rest =>
      simp only [hu]
      obtain ⟨ihl, ihn, ihb⟩ := ih (addAlleleByLocusName al (markers.getD j "") a) p
      refine ⟨by rw [ihl, addAllele_length], by rw [ihn, addAllele_nameAtD], ?_⟩
      calc alLenAtD _ p
          ≤ alLenAtD (addAlleleByLocusName al (markers.getD j "") a) p +
            js.countP (fun j' => decide (nameAtD
              (addAlleleByLocusName al (markers.getD j "") a) p = markers.getD j' "")) := ihb
        _ = alLenAtD (addAlleleByLocusName al (markers.getD j "") a) p +
            js.countP (fun j' => decide (nameAtD al p = markers.getD j' "")) := by
              rw [addAllele_nameAtD]
        _ ≤ (alLenAtD al p + (if nameAtD al p = markers.getD j "" then 1 else 0)) +
            js.countP (fun j' => decide (nameAtD al p = markers.getD j' "")) := by
              exact Nat.add_le_add_right (addAllele_alLenAtD _ _ _ _) _
        _ ≤ alLenAtD al p + (j :: js).countP
            (fun j' => decide (nameAtD al p = markers.getD j' "")) := by
              rw [List.countP_cons]
              by_cases hx : nameAtD al p = markers.getD j "" <;> simp [hx] <;> omega

theorem countP_range_getD (L : List String) (x : String) :
    (List.range L.length).countP (fun j => decide (x = L.getD j "")) = L.count x := by
  induction L with
  | nil => rfl
  | cons b T ih =>
    show (List.range (T.length + 1)).countP _ = _
    rw [List.range_succ_eq_map, List.countP_cons, List.countP_map, List.count_cons]
    have harg : ((fun j => decide (x = (b :: T).getD j "")) ∘ (· + 1)) =
        (fun j => decide (x = T.getD j "")) := by
      funext j
      simp [List.getD_cons_succ]
    rw [harg, ih]
    by_cases hx : x = b
    · simp [List.getD_cons_zero, hx]
    · have hbx : ¬b = x := fun h => hx h.symm
      simp [List.getD_cons_zero, hx, hbx]

theorem registerColumn_length (dt : DataTable) (markers : List String)
    (aPos : List (List Nat)) (i : Nat) (al : List LocusInfo) :
    (registerColumn dt markers aPos i al).length = al.length :=
  (registerColumn_fold_bound dt markers aPos i (List.range markers.length) al 0).1

theorem registerColumn_nameAtD (dt : DataTable) (markers : List String)
    (aPos : List (List Nat)) (i : Nat) (al : List LocusInfo) (p : Nat) :
    nameAtD (registerColumn dt markers aPos i al) p = nameAtD al p :=
  (registerColumn_fold_bound dt markers aPos i (List.range markers.length) al p).2.1

theorem registerColumn_alLenAtD (dt : DataTable) (markers : List String)
    (aPos : List (List Nat)) (i : Nat) (al : List LocusInfo) (p : Nat) :
    alLenAtD (registerColumn dt markers aPos i al) p ≤
      alLenAtD al p + (List.range markers.length).countP
        (fun j => decide (nameAtD al p = markers.getD j "")) :=
  (registerColumn_fold_bound dt markers aPos i (List.range markers.length) al p).2.2

/-- Whole allele-registration loop: under distinct marker names, each
locus position gains at most one allele per "Allele" column. -/
theorem registerColumns_bound (dt : DataTable) (markers : List String)
    (aPos : List (List Nat)) (hN : markers.Nodup) (p : Nat) :
    ∀ (cols : List Nat) (al : List LocusInfo),
      al.length = markers.length → nameAtD al p = markers.getD p "" →
      ((cols.foldl (fun al i => registerColumn dt markers aPos i al) al).length = markers.length)
      ∧ (nameAtD (cols.foldl (fun al i => registerColumn dt markers aPos i al) al) p =
          markers.getD p "")
      ∧ (alLenAtD (cols.foldl (fun al i => registerColumn dt markers aPos i al) al) p ≤
          alLenAtD al p + cols.length) := by
  intro cols
  induction cols with
  | nil => intro al hl hn; exact ⟨hl, hn, by simp⟩
  | cons c cols ih =>
    intro al hl hn
    rw [List.foldl_cons]
    obtain ⟨ihl, ihn, ihb⟩ := ih (registerColumn dt markers aPos c al)
      (by rw [registerColumn_length, hl]) (by rw [registerColumn_nameAtD, hn])
    refine ⟨ihl, ihn, ?_⟩
    have hcount : (List.range markers.length).countP
        (fun j => decide (nameAtD al p = markers.getD j "")) ≤ 1 := by
      rw [hn, countP_range_getD]
      exact (List.nodup_iff_count_le_one.1 hN) _
    have rb := registerColumn_alLenAtD dt markers aPos c al p
    calc alLenAtD _ p ≤ alLenAtD (registerColumn dt markers aPos c al) p + cols.length := ihb
      _ ≤ alLenAtD al p + (c :: cols).length := by
          simp only [List.length_cons]
          omega

theorem registerAlleles_length (dt : DataTable) (aCols : List Nat) (markers : List String)
    (aPos : List (List Nat)) :
    (registerAlleles dt aCols markers aPos).length = markers.length := by
  have hfold : ∀ (cols : List Nat) (al : List LocusInfo),
      (cols.foldl (fun al i => registerColumn dt markers aPos i al) al).length = al.length := by
    intro cols
    induction cols with
    | nil => intro al; rfl
    | cons c cols ih =>
      intro al
      rw [List.foldl_cons, ih, registerColumn_length]
  unfold registerAlleles
  rw [hfold]
  simp

theorem registerAlleles_le (dt : DataTable) (aCols : List Nat) (markers : List String)
    (aPos : List (List Nat)) (hN : markers.Nodup) (p : Nat) :
    alLenAtD (registerAlleles dt aCols markers aPos) p ≤ aCols.length := by
  by_cases hp : p < markers.length
  · have hinit_len : (markers.map (fun mk => (⟨mk, []⟩ : LocusInfo))).length = markers.length := by
      simp
    have hinit_name : nameAtD (markers.map (fun mk => (⟨mk, []⟩ : LocusInfo))) p =
        markers.getD p "" := by
      unfold nameAtD
      rw [List.getD_eq_getElem _ _ (by simpa using hp), List.getD_eq_getElem _ _ hp,
        List.getElem_map]
    have hinit_zero : alLenAtD (markers.map (fun mk => (⟨mk, []⟩ : LocusInfo))) p = 0 := by
      unfold alLenAtD
      rw [List.getD_eq_getElem _ _ (by simpa using hp), List.getElem_map]
      rfl
    obtain ⟨_, _, hb⟩ := registerColumns_bound dt markers aPos hN p aCols
      (markers.map (fun mk => ⟨mk, []⟩)) hinit_len hinit_name
    unfold registerAlleles
    omega
  · unfold alLenAtD
    rw [List.getD_eq_default _ _ (by rw [registerAlleles_length]; omega)]
    simp

theorem fixStep_colNames (indIdx markIdx : Nat) (acc : DataTable × (String → Nat)) (i : Nat) :
    ((fixStep indIdx markIdx acc i).1).colNames = acc.1.colNames := by
  unfold fixStep
  dsimp only
  split <;> rfl

theorem fixDuplicates_colNames (dt : DataTable) (indIdx markIdx : Nat) :
    (fixDuplicates dt indIdx markIdx).colNames = dt.colNames := by
  have hfold : ∀ (js : List Nat) (acc : DataTable × (String → Nat)),
      ((js.foldl (fixStep indIdx markIdx) acc).1).colNames = acc.1.colNames := by
    intro js
    induction js with
    | nil => intro acc; rfl
    | cons j js ih => intro acc; rw [List.foldl_cons, ih, fixStep_colNames]
  unfold fixDuplicates
  rw [hfold]

theorem alleleCols_fixDuplicates (dt : DataTable) (indIdx markIdx : Nat) :
    alleleCols (fixDuplicates dt indIdx markIdx) = alleleCols dt := by
  unfold alleleCols
  rw [fixDuplicates_colNames]

/-- Claim C10: the allele-collection loop registers only the head of
the deduplicated label set per (column, marker) pair, so no locus ever
receives more registered alleles than there are "Allele" columns. -/
theorem c10_alleles_per_locus (dt : DataTable) (ds' : DataSet) (tr : List Event)
    (h : readOut dt = some (ds', tr)) :
    ∀ L ∈ lociOf ds', L.alleles.length ≤ (alleleCols dt).length := by
  unfold readOut at h
  cases hR : read dt dsEmpty with
  | error e => rw [hR] at h; cases h
  | ok out =>
    rw [hR] at h
    injection h with h
    unfold read at hR
    cases hI : columnIndex dt "Sample Name" with
    | none => rw [hI] at hR; cases hR
    | some indIdx =>
      cases hM : columnIndex dt "Marker" with
      | none => rw [hI, hM] at hR; cases hR
      | some markIdx =>
        rw [hI, hM] at hR
        have hpres := foldE_inv
          (fun st => st.1.loci = (importPrep dt dsEmpty indIdx markIdx).loci)
          (assembleRow (fixDuplicates dt indIdx markIdx)
            (alleleCols (fixDuplicates dt indIdx markIdx)) indIdx markIdx)
          (fun b i b' hb hstep => (assembleRow_loci _ _ _ _ b b' i hstep).trans hb)
          (List.range (fixDuplicates dt indIdx markIdx).rows.length)
          (importPrep dt dsEmpty indIdx markIdx, []) out rfl hR
        rw [h] at hpres
        intro L hL
        have hloci : lociOf ds' = registerAlleles (fixDuplicates dt indIdx markIdx)
            (alleleCols (fixDuplicates dt indIdx markIdx))
            (uniqueFirst (columnAt dt markIdx))
            ((uniqueFirst (columnAt dt markIdx)).map
              (whichAll (columnAt (fixDuplicates dt indIdx markIdx) markIdx))) := by
          unfold lociOf
          rw [hpres]
          rfl
        rw [hloci] at hL
        obtain ⟨p, hp, hEq⟩ := List.getElem_of_mem hL
        have hb := registerAlleles_le (fixDuplicates dt indIdx markIdx)
          (alleleCols (fixDuplicates dt indIdx markIdx))
          (uniqueFirst (columnAt dt markIdx))
          ((uniqueFirst (columnAt dt markIdx)).map
            (whichAll (columnAt (fixDuplicates dt indIdx markIdx) markIdx)))
          (uniqueFirst_nodup _) p
        unfold alLenAtD at hb
        rw [List.getD_eq_getElem _ _ hp, hEq, alleleCols_fixDuplicates] at hb
        exact hb

/-- Witness for C10 at `dtW10`: two rows sharing the allele label "x"
at marker "M"; the locus registry holds one allele, bounded by the one
"Allele" column. -/
theorem c10_alleles_per_locus_witness :
    readOut dtW10 = some (dsW10, [.initG "A", .setG "A" 0 [0], .initG "B", .setG "B" 0 [0]])
    ∧ ∀ L ∈ lociOf dsW10, L.alleles.length ≤ (alleleCols dtW10).length :=
  ⟨by decide,
   c10_alleles_per_locus dtW10 dsW10
     [.initG "A", .setG "A" 0 [0], .initG "B", .setG "B" 0 [0]] (by decide)⟩

/-! ## Claim C1 (amended form) -/

/-- A two-column table whose two rows carry identical "Sample Name"
and "Marker" values. -/
def twoRowTable (s m : String) : DataTable :=
  ⟨["Sample Name", "Marker"], [[s, m], [s, m]]⟩

/-- Claim C1 (amended): importing a table with exactly two rows with
identical Sample Name and Marker values yields two distinct sample
names, the second being the original name suffixed with `_2` (the
occurrence counter plus one), and both individuals are registered —
with initialized genotype stores — under the single locus derived from
the shared marker. -/
theorem c1_amended_duplicate_rows (s m : String) :
    readOut (twoRowTable s m) =
      some (⟨some [⟨m, []⟩], [⟨0, [⟨s, some [none]⟩, ⟨s ++ "_2", some [none]⟩]⟩]⟩,
        [.initG s, .initG (s ++ "_2")])
    ∧ s ≠ s ++ "_2" := by
  have hne : s ++ "_2" ≠ s := by
    intro h
    have h' := congrArg String.length h
    rw [String.length_append] at h'
    have h2 : ("_2" : String).length = 2 := rfl
    rw [h2] at h'
    omega
  have hne' : s ≠ s ++ "_2" := fun h => hne h.symm
  refine ⟨?_, hne'⟩
  have hfix : fixDuplicates (twoRowTable s m) 0 1 =
      ⟨["Sample Name", "Marker"], [[s, m], [s ++ "_2", m]]⟩ := by
    have h2 : toString (2 : Nat) = "2" := rfl
    have hr : List.range 2 = [0, 1] := rfl
    unfold fixDuplicates twoRowTable
    rw [show (⟨["Sample Name", "Marker"], [[s, m], [s, m]]⟩ : DataTable).rows.length = 2 from rfl]
    rw [hr, List.foldl_cons, List.foldl_cons, List.foldl_nil]
    simp [fixStep, cell, setCell, h2, String.append_assoc]
  have hprep : importPrep (twoRowTable s m) dsEmpty 0 1 =
      ⟨some [⟨m, []⟩], [⟨0, [⟨s, none⟩, ⟨s ++ "_2", none⟩]⟩]⟩ := by
    unfold importPrep
    rw [hfix]
    have hcolInd : columnAt (⟨["Sample Name", "Marker"], [[s, m], [s ++ "_2", m]]⟩ : DataTable) 0
        = [s, s ++ "_2"] := rfl
    have hcolMark : columnAt (twoRowTable s m) 1 = [m, m] := rfl
    rw [hcolInd, hcolMark]
    have hu1 : uniqueFirst [s, s ++ "_2"] = [s, s ++ "_2"] := by
      simp [uniqueFirst, hne]
    have hu2 : uniqueFirst [m, m] = [m] := by
      simp [uniqueFirst]
    rw [hu1, hu2]
    rw [show addEmptyGroup (initAnalyzedLoci dsEmpty [m].length) 0 =
      (⟨some [⟨"", []⟩], [⟨0, []⟩]⟩ : DataSet) from rfl]
    rw [foldl_addInd]
    rfl
  unfold readOut read
  rw [show columnIndex (twoRowTable s m) "Sample Name" = some 0 from rfl,
    show columnIndex (twoRowTable s m) "Marker" = some 1 from rfl]
  dsimp only
  rw [hfix, hprep]
  rw [show alleleCols (⟨["Sample Name", "Marker"], [[s, m], [s ++ "_2", m]]⟩ : DataTable)
    = [] from rfl]
  rw [show (⟨["Sample Name", "Marker"], [[s, m], [s ++ "_2", m]]⟩ : DataTable).rows.length
    = 2 from rfl]
  rw [show List.range 2 = [0, 1] from rfl]
  have hstep1 : assembleRow (⟨["Sample Name", "Marker"], [[s, m], [s ++ "_2", m]]⟩ : DataTable)
      [] 0 1 (⟨some [⟨m, []⟩], [⟨0, [⟨s, none⟩, ⟨s ++ "_2", none⟩]⟩]⟩, []) 0 =
      .ok (⟨some [⟨m, []⟩], [⟨0, [⟨s, some [none]⟩, ⟨s ++ "_2", none⟩]⟩]⟩, [.initG s]) := by
    simp [assembleRow, rowKeys, cell, getIndividualFromGroup0, getGroup0, updGenotype,
      lociOf, uniqueFirst, List.find?, hne]
  have hstep2 : assembleRow (⟨["Sample Name", "Marker"], [[s, m], [s ++ "_2", m]]⟩ : DataTable)
      [] 0 1 (⟨some [⟨m, []⟩], [⟨0, [⟨s, some [none]⟩, ⟨s ++ "_2", none⟩]⟩]⟩, [.initG s]) 1 =
      .ok (⟨some [⟨m, []⟩], [⟨0, [⟨s, some [none]⟩, ⟨s ++ "_2", some [none]⟩]⟩]⟩,
        [.initG s, .initG (s ++ "_2")]) := by
    simp [assembleRow, rowKeys, cell, getIndividualFromGroup0, getGroup0, updGenotype,
      lociOf, uniqueFirst, List.find?, hne, hne']
  simp only [foldE, hstep1, hstep2]

/-! ## Sequence statistics

The statistics engine implementation (`SequenceStatistics.cpp`) is not
under `src/`: only the header `SequenceStatistics.h` with declarations
and doc-comment formulas is.  The definitions below are therefore
modelled from the spec (and the header's formulas), over exact
rationals. -/

/-- Modelled from the spec: the aligned container consumed by the
statistics engine (`PolymorphismSequenceContainer`, an external
collaborator whose implementation is absent from `src/`): `n` sampled
sequences, each site holding one symbol per sequence, `none` = gap. -/
structure PolymorphismSequenceContainer where
  n : Nat
  sites : List (List (Option Nat))
deriving DecidableEq, Repr

/-- Modelled from the spec: number of distinct states at a site under
the gap policy — `gapflag = true` counts the gap as a state, `false`
excludes gaps (spec section 3: "include/exclude gap as a state";
section 8 fixes this reading of the flag). -/
def distinctStates (gapflag : Bool) (site : List (Option Nat)) : Nat :=
  if gapflag then site.dedup.length else (site.filterMap id).dedup.length

def isPolymorphic (gapflag : Bool) (site : List (Option Nat)) : Bool :=
  decide (2 ≤ distinctStates gapflag site)

/-- Modelled from the spec:
`SequenceStatistics::polymorphicSiteNumber` — the number of sites with
at least two distinct states under the gap policy. -/
def polymorphicSiteNumber (psc : PolymorphismSequenceContainer) (gapflag : Bool) : Nat :=
  psc.sites.countP (isPolymorphic gapflag)

theorem countP_le_countP {α : Type} (p q : α → Bool) (l : List α)
    (h : ∀ a ∈ l, p a = true → q a = true) : l.countP p ≤ l.countP q := by
  induction l with
  | nil => simp
  | cons a l ih =>
    rw [List.countP_cons, List.countP_cons]
    have hl := ih (fun b hb => h b (List.mem_cons_of_mem a hb))
    by_cases hp : p a = true
    · rw [hp, h a (List.mem_cons_self a l) hp]
      omega
    · have h0 : (if p a = true then 1 else 0) = 0 := by rw [if_neg hp]
      rw [h0]
      split <;> omega

theorem distinctStates_mono (site : List (Option Nat)) :
    distinctStates false site ≤ distinctStates true site := by
  unfold distinctStates
  simp only [Bool.false_eq_true, if_false, if_true]
  rw [← List.card_toFinset, ← List.card_toFinset]
  have himg : (site.filterMap id).toFinset.image some ⊆ site.toFinset := by
    intro x hx
    simp only [Finset.mem_image, List.mem_toFinset, List.mem_filterMap] at hx ⊢
    obtain ⟨a, ⟨b, hb, hid⟩, rfl⟩ := hx
    exact hid ▸ hb
  calc (site.filterMap id).toFinset.card
      = ((site.filterMap id).toFinset.image some).card :=
        (Finset.card_image_of_injective _ (Option.some_injective _)).symm
    _ ≤ site.toFinset.card := Finset.card_le_card himg

/-- Claim C6: for every fixed alignment, counting gaps as a state can
only increase the number of distinct states per site, so the
`gapflag = true` polymorphic-site count dominates the
`gapflag = false` one. -/
theorem c6_polymorphic_gap_monotone (psc : PolymorphismSequenceContainer) :
    polymorphicSiteNumber psc false ≤ polymorphicSiteNumber psc true := by
  unfold polymorphicSiteNumber
  refine countP_le_countP _ _ _ (fun site _ hfalse => ?_)
  unfold isPolymorphic at hfalse ⊢
  rw [decide_eq_true_eq] at hfalse
  rw [decide_eq_true_eq]
  exact le_trans hfalse (distinctStates_mono site)

/-- Modelled from the spec: the helper coefficients of
`SequenceStatistics::_getUsefullValues` (header lines 711-739), with
`a1` and `a2` accumulated by a loop over `i = 1 .. n-1` as the
implementation contract states ("computed once per sample size"). -/
structure UsefullValues where
  a1 : ℚ
  a2 : ℚ
  e1 : ℚ
  e2 : ℚ
deriving DecidableEq, Repr

def getUsefullValues (n : Nat) : UsefullValues :=
  let a1 : ℚ := (List.range (n - 1)).foldl (fun acc (i : Nat) => acc + 1 / ((i : ℚ) + 1)) 0
  let a2 : ℚ :=
    (List.range (n - 1)).foldl (fun acc (i : Nat) => acc + 1 / (((i : ℚ) + 1) ^ 2)) 0
  let nq : ℚ := (n : ℚ)
  let b1 : ℚ := (nq + 1) / (3 * (nq - 1))
  let b2 : ℚ := 2 * (nq ^ 2 + nq + 3) / (9 * nq * (nq - 1))
  let c1 : ℚ := b1 - 1 / a1
  let c2 : ℚ := b2 - (nq + 2) / (a1 * nq) + a2 / (a1 ^ 2)
  ⟨a1, a2, c1 / a1, c2 / (a1 ^ 2 + a2)⟩

/-- Modelled from the spec: Watterson's (1975) estimator
`θ = S / a1` (`SequenceStatistics.h` lines 149-160). -/
def watterson75 (psc : PolymorphismSequenceContainer) (gapflag : Bool) : ℚ :=
  (polymorphicSiteNumber psc gapflag : ℚ) / (getUsefullValues psc.n).a1

theorem foldl_add_range_eq_sum (g : Nat → ℚ) (k : Nat) :
    (List.range k).foldl (fun acc i => acc + g i) 0 = ∑ i in Finset.range k, g i := by
  induction k with
  | zero => simp
  | succ k ih =>
    rw [List.range_succ, List.foldl_append, List.foldl_cons, List.foldl_nil,
      Finset.sum_range_succ, ih]

/-- Claim C7: for every valid alignment, `watterson75` returns `S / a1`
where `S` is the polymorphic-site count under the selected gap policy
and `a1 = Σ_{i=1}^{n-1} 1/i`. -/
theorem c7_watterson (psc : PolymorphismSequenceContainer) (gapflag : Bool)
    (hn : 2 ≤ psc.n) (hw : ∀ s ∈ psc.sites, s.length = psc.n) :
    watterson75 psc gapflag =
      (polymorphicSiteNumber psc gapflag : ℚ) /
        ∑ i in Finset.range (psc.n - 1), 1 / ((i : ℚ) + 1) := by
  unfold watterson75 getUsefullValues
  dsimp only
  rw [foldl_add_range_eq_sum]

/-- A valid two-sequence alignment with one polymorphic site. -/
def pscW7 : PolymorphismSequenceContainer := ⟨2, [[some 0, some 1]]⟩

/-- Witness for C7 at `pscW7`. -/
theorem c7_watterson_witness :
    2 ≤ pscW7.n ∧ (∀ s ∈ pscW7.sites, s.length = pscW7.n)
    ∧ watterson75 pscW7 true =
        (polymorphicSiteNumber pscW7 true : ℚ) /
          ∑ i in Finset.range (pscW7.n - 1), 1 / ((i : ℚ) + 1) :=
  ⟨by decide, by decide, c7_watterson pscW7 true (by decide) (by decide)⟩

/-- Modelled from the spec: the symbols considered at a site under the
gap policy. -/
def consideredSymbols (gapflag : Bool) (site : List (Option Nat)) : List (Option Nat) :=
  if gapflag then site else (site.filterMap id).map some

/-- Modelled from the spec: the per-site heterozygosity
`1 − Σ_j k_j(k_j−1)/(n_i(n_i−1))` (spec section 4.1 / header lines
162-175). -/
def sitePi (gapflag : Bool) (site : List (Option Nat)) : ℚ :=
  1 - ((consideredSymbols gapflag site).dedup.map (fun x =>
    ((consideredSymbols gapflag site).count x : ℚ) *
      (((consideredSymbols gapflag site).count x : ℚ) - 1) /
      (((consideredSymbols gapflag site).length : ℚ) *
        (((consideredSymbols gapflag site).length : ℚ) - 1)))).sum

/-- Modelled from the spec: Tajima's (1983) estimator — per-site
heterozygosities summed over the polymorphic sites. -/
def tajima83 (psc : PolymorphismSequenceContainer) (gapflag : Bool) : ℚ :=
  ((psc.sites.filter (isPolymorphic gapflag)).map (sitePi gapflag)).sum

/-- Modelled from the spec: the total mutation count under the
infinite-site model — per-site distinct states minus one, summed. -/
def totNumberMutations (psc : PolymorphismSequenceContainer) (gapflag : Bool) : Nat :=
  (psc.sites.map (fun site => distinctStates gapflag site - 1)).sum

inductive StatError where
  | undefinedStatistic
deriving DecidableEq, Repr

/-- The variance denominator `e1·S + e2·S·(S−1)` of Tajima's D. -/
def tajimaVariance (n : Nat) (S : ℚ) : ℚ :=
  (getUsefullValues n).e1 * S + (getUsefullValues n).e2 * S * (S - 1)

/-- Modelled from the spec: Tajima's D, segregating-sites form (header
lines 450-462).  The `ok` value carries the numerator `θπ − θS` and the
variance `e1·S + e2·S·(S−1)` (the real code divides the numerator by
the square root of the variance); `S ≤ 1` or a non-positive variance is
reported as a recoverable computational error, never a silent NaN. -/
def tajimaDSS (psc : PolymorphismSequenceContainer) (gapflag : Bool) :
    Except StatError (ℚ × ℚ) :=
  if polymorphicSiteNumber psc gapflag ≤ 1 then .error .undefinedStatistic
  else
    if tajimaVariance psc.n (polymorphicSiteNumber psc gapflag : ℚ) ≤ 0 then
      .error .undefinedStatistic
    else
      .ok (tajima83 psc gapflag - watterson75 psc gapflag,
        tajimaVariance psc.n (polymorphicSiteNumber psc gapflag : ℚ))

/-- Modelled from the spec: Tajima's D, total-mutation form (header
lines 464-475), with `η` as the mutation-count proxy. -/
def tajimaDTNM (psc : PolymorphismSequenceContainer) (gapflag : Bool) :
    Except StatError (ℚ × ℚ) :=
  if totNumberMutations psc gapflag ≤ 1 then .error .undefinedStatistic
  else
    if tajimaVariance psc.n (totNumberMutations psc gapflag : ℚ) ≤ 0 then
      .error .undefinedStatistic
    else
      .ok (tajima83 psc gapflag - (totNumberMutations psc gapflag : ℚ) /
          (getUsefullValues psc.n).a1,
        tajimaVariance psc.n (totNumberMutations psc gapflag : ℚ))

/-- Claim C8: whenever the mutation-count proxy is at most one or the
variance denominator is non-positive, both forms of Tajima's D fail
with the recoverable `undefinedStatistic` error. -/
theorem c8_tajima_undefined (psc : PolymorphismSequenceContainer) (gapflag : Bool) :
    (polymorphicSiteNumber psc gapflag ≤ 1 ∨
        tajimaVariance psc.n (polymorphicSiteNumber psc gapflag : ℚ) ≤ 0 →
      tajimaDSS psc gapflag = .error .undefinedStatistic)
    ∧ (totNumberMutations psc gapflag ≤ 1 ∨
        tajimaVariance psc.n (totNumberMutations psc gapflag : ℚ) ≤ 0 →
      tajimaDTNM psc gapflag = .error .undefinedStatistic) := by
  constructor
  · intro h
    unfold tajimaDSS
    rcases h with h | h
    · rw [if_pos h]
    · by_cases h1 : polymorphicSiteNumber psc gapflag ≤ 1
      · rw [if_pos h1]
      · rw [if_neg h1, if_pos h]
  · intro h
    unfold tajimaDTNM
    rcases h with h | h
    · rw [if_pos h]
    · by_cases h1 : totNumberMutations psc gapflag ≤ 1
      · rw [if_pos h1]
      · rw [if_neg h1, if_pos h]

/-- An alignment with no polymorphic site at all. -/
def pscW8 : PolymorphismSequenceContainer := ⟨2, [[some 0, some 0]]⟩

/-- Witness for C8 at `pscW8` (`S = η = 0 ≤ 1`). -/
theorem c8_tajima_undefined_witness :
    polymorphicSiteNumber pscW8 true ≤ 1
    ∧ totNumberMutations pscW8 true ≤ 1
    ∧ tajimaDSS pscW8 true = .error .undefinedStatistic
    ∧ tajimaDTNM pscW8 true = .error .undefinedStatistic :=
  ⟨by decide, by decide,
   (c8_tajima_undefined pscW8 true).1 (Or.inl (by decide)),
   (c8_tajima_undefined pscW8 true).2 (Or.inl (by decide))⟩

/-! ## Claim C9 -/

/-- Non-gap symbols of a site. -/
def siteNonGap (site : List (Option Nat)) : List Nat := site.filterMap id

/-- Distinct non-gap allele states in order of first appearance. -/
def alleleList (site : List (Option Nat)) : List Nat := uniqueFirst (siteNonGap site)

def countSym (site : List (Option Nat)) (a : Nat) : Nat := (siteNonGap site).count a

/-- Modelled from the spec: the LD-container site filter — keep only
sites with exactly two alleles, optionally dropping singleton sites
(`keepsingleton = false`) and sites whose minor-allele frequency
`minCount / n_i` falls below `freqmin` (spec section 3, "LD
Container").  The frequency test is written by cross-multiplication
over the integers; `ldKeep_freq_iff` proves it equivalent to
`freqmin ≤ minCount / n_i` for the nonempty sites that reach it. -/
def ldKeep (keepsingleton : Bool) (freqmin : ℚ) (site : List (Option Nat)) : Bool :=
  match alleleList site with
  | [a, b] =>
    (keepsingleton || decide (2 ≤ min (countSym site a) (countSym site b))) &&
      decide (freqmin.num * ((siteNonGap site).length : Int) ≤
        ((min (countSym site a) (countSym site b) : Nat) : Int) * (freqmin.den : Int))
  | _ => false

/-- The integer form of the minor-allele-frequency test coincides with
the rational frequency comparison whenever the site is nonempty. -/
theorem ldKeep_freq_iff (freqmin : ℚ) (mn len : Nat) (hlen : 0 < len) :
    (freqmin.num * (len : Int) ≤ (mn : Int) * (freqmin.den : Int)) ↔
      freqmin ≤ (mn : ℚ) / (len : ℚ) := by
  have hlenQ : (0 : ℚ) < (len : ℚ) := by exact_mod_cast hlen
  have hdenQ : (0 : ℚ) < (freqmin.den : ℚ) := by exact_mod_cast freqmin.pos
  have hnum : freqmin * (freqmin.den : ℚ) = (freqmin.num : ℚ) := by
    nth_rewrite 1 [← Rat.num_div_den freqmin]
    rw [div_mul_cancel₀ _ (ne_of_gt hdenQ)]
  rw [le_div_iff₀ hlenQ, ← mul_le_mul_right hdenQ,
    show freqmin * (len : ℚ) * (freqmin.den : ℚ) = ((freqmin.num * len : Int) : ℚ) by
      push_cast
      rw [← hnum]
      ring,
    show (mn : ℚ) * (freqmin.den : ℚ) = (((mn : Int) * (freqmin.den : Int) : Int) : ℚ) by
      push_cast
      ring]
  exact Int.cast_le.symm

/-- Modelled from the spec: recode a biallelic site to a binary
indicator — 1 for the more frequent allele, 0 for the less frequent,
ties broken first-encountered-allele-wins. -/
def ldRecode (site : List (Option Nat)) : List (Option Nat) :=
  match alleleList site with
  | [a, b] =>
    site.map (fun x => x.map (fun y =>
      if y = (if countSym site a < countSym site b then b else a) then 1 else 0))
  | _ => site

/-- Modelled from the spec:
`SequenceStatistics::generateLDContainer` (header lines 508-517). -/
def generateLDContainer (psc : PolymorphismSequenceContainer)
    (keepsingleton : Bool) (freqmin : ℚ) : PolymorphismSequenceContainer :=
  ⟨psc.n, (psc.sites.filter (ldKeep keepsingleton freqmin)).map ldRecode⟩

theorem siteNonGap_map (g : Nat → Nat) (site : List (Option Nat)) :
    siteNonGap (site.map (fun x => x.map g)) = (siteNonGap site).map g := by
  unfold siteNonGap
  induction site with
  | nil => rfl
  | cons x xs ih => cases x <;> simp [ih]

theorem countP_eq_countP {α : Type} (p q : α → Bool) (l : List α)
    (h : ∀ a ∈ l, p a = q a) : l.countP p = l.countP q := by
  induction l with
  | nil => rfl
  | cons a l ih =>
    rw [List.countP_cons, List.countP_cons,
      ih (fun b hb => h b (List.mem_cons_of_mem a hb)), h a (List.mem_cons_self a l)]

theorem count_map_eq_countP (g : Nat → Nat) (l : List Nat) (k : Nat) :
    (l.map g).count k = l.countP (fun y => g y == k) := by
  induction l with
  | nil => rfl
  | cons a l ih => simp [List.count_cons, List.countP_cons, ih]

theorem count_eq_countP_beq (l : List Nat) (k : Nat) :
    l.count k = l.countP (fun y => y == k) := rfl

theorem recode_binary (l : List Nat) (M m0 : Nat) (hMm : M ≠ m0)
    (hM : M ∈ l) (hm : m0 ∈ l) (hall : ∀ x ∈ l, x = M ∨ x = m0)
    (hcnt : l.count m0 ≤ l.count M) :
    ((l.map (fun y => if y = M then 1 else 0)).toFinset = ({0, 1} : Finset Nat))
    ∧ ((l.map (fun y => if y = M then 1 else 0)).count 0 ≤
        (l.map (fun y => if y = M then 1 else 0)).count 1) := by
  constructor
  · ext x
    simp only [List.mem_toFinset, List.mem_map, Finset.mem_insert, Finset.mem_singleton]
    constructor
    · rintro ⟨y, hy, rfl⟩
      by_cases hyM : y = M
      · right; rw [if_pos hyM]
      · left; rw [if_neg hyM]
    · rintro (rfl | rfl)
      · exact ⟨m0, hm, by rw [if_neg (fun h => hMm h.symm)]⟩
      · exact ⟨M, hM, by rw [if_pos rfl]⟩
  · rw [count_map_eq_countP, count_map_eq_countP]
    have h0 : l.countP (fun y => (if y = M then 1 else 0) == 0) =
        l.countP (fun y => y == m0) := by
      refine countP_eq_countP _ _ _ (fun y hy => ?_)
      by_cases hyM : y = M
      · rw [if_pos hyM]
        have : ¬(y == m0) = true := by
          simp only [beq_iff_eq]
          rw [hyM]
          exact hMm
        simp [this]
      · rcases hall y hy with h | h
        · exact absurd h hyM
        · rw [if_neg hyM]
          simp [h]
    have h1 : l.countP (fun y => (if y = M then 1 else 0) == 1) =
        l.countP (fun y => y == M) := by
      refine countP_eq_countP _ _ _ (fun y hy => ?_)
      by_cases hyM : y = M
      · rw [if_pos hyM]
        simp [hyM]
      · rw [if_neg hyM]
        simp [hyM]
    rw [h0, h1, ← count_eq_countP_beq, ← count_eq_countP_beq]
    exact hcnt

/-- Claim C9: for every polymorphism container and every choice of the
`keepsingleton` and `freqmin` options, each site of the container
produced by `generateLDContainer` is biallelic — its non-gap states are
exactly {0, 1} — and the state 1 (the recoding of the more frequent
allele, ties first-encountered-wins) is at least as frequent as 0. -/
theorem c9_ld_biallelic (psc : PolymorphismSequenceContainer)
    (keepsingleton : Bool) (freqmin : ℚ) (site' : List (Option Nat))
    (h : site' ∈ (generateLDContainer psc keepsingleton freqmin).sites) :
    (siteNonGap site').toFinset = ({0, 1} : Finset Nat)
    ∧ countSym site' 0 ≤ countSym site' 1 := by
  unfold generateLDContainer at h
  dsimp only at h
  obtain ⟨s0, hs0mem, hrec⟩ := List.mem_map.1 h
  have hkeep := (List.mem_filter.1 hs0mem).2
  unfold ldKeep at hkeep
  split at hkeep
  case _ =>
   rename_i x a b heq
   have hnodup : ([a, b] : List Nat).Nodup := heq ▸ uniqueFirst_nodup (siteNonGap s0)
   have hab : a ≠ b := by simpa using hnodup
   have hiff : ∀ x, x ∈ siteNonGap s0 ↔ x ∈ [a, b] := by
     intro x
     rw [← heq]
     exact (mem_uniqueFirst x (siteNonGap s0)).symm
   have hamem : a ∈ siteNonGap s0 := (hiff a).2 (List.mem_cons_self _ _)
   have hbmem : b ∈ siteNonGap s0 := (hiff b).2 (by simp)
   have hall : ∀ x ∈ siteNonGap s0, x = a ∨ x = b := by
     intro x hx
     simpa using (hiff x).1 hx
   unfold ldRecode at hrec
   rw [heq] at hrec
   dsimp only at hrec
   by_cases hord : countSym s0 a < countSym s0 b
   · simp only [if_pos hord] at hrec
     subst hrec
     rw [siteNonGap_map]
     unfold countSym
     rw [siteNonGap_map]
     exact recode_binary (siteNonGap s0) b a (fun hh => hab hh.symm) hbmem hamem
       (fun x hx => (hall x hx).symm) (Nat.le_of_lt hord)
   · simp only [if_neg hord] at hrec
     subst hrec
     rw [siteNonGap_map]
     unfold countSym
     rw [siteNonGap_map]
     exact recode_binary (siteNonGap s0) a b hab hamem hbmem (hall)
       (Nat.le_of_not_lt hord)
  case _ => exact absurd hkeep (by simp)


/-- A container with one biallelic site (counts 2 and 1). -/
def pscW9 : PolymorphismSequenceContainer := ⟨3, [[some 5, some 5, some 7]]⟩

/-- Witness for C9 at `pscW9`: the recoded site [1, 1, 0] is in the LD
container, is biallelic and has the majority state mapped to 1. -/
theorem c9_ld_biallelic_witness :
    ([some 1, some 1, some 0] ∈ (generateLDContainer pscW9 true 0).sites)
    ∧ (siteNonGap [some 1, some 1, some 0]).toFinset = ({0, 1} : Finset Nat)
    ∧ countSym [some 1, some 1, some 0] 0 ≤ countSym [some 1, some 1, some 0] 1 :=
  ⟨by decide,
   (c9_ld_biallelic pscW9 true 0 [some 1, some 1, some 0] (by decide)).1,
   (c9_ld_biallelic pscW9 true 0 [some 1, some 1, some 0] (by decide)).2⟩

end Pop
